import Mathlib

/-!
Shallow embedding of the incremental Gmail-ingestion utility of this
repository (`notebooks/Gmail_utility.py`, `notebooks/gmail_utility_api_server.py`):
calendar dates, the two `build_query` variants, the fixed-format header-date
parsing used for cursor tracking, and the ingestion run
`fetch_and_store_emails` with its persistence and job-statistics steps.
-/

namespace BfaGmail

/-- Calendar date (no time-of-day). `datetime.strptime` with the format
`'%a, %d %b %Y'` only yields these fields, and the cursor is persisted at
day precision via `strftime('%Y/%m/%d')`. -/
structure Date where
  year : Nat
  month : Nat
  day : Nat
deriving DecidableEq, Repr

/-- Lexicographic strict order on dates, as Python `datetime` comparison
restricted to date fields. -/
def Date.ltb (a b : Date) : Bool :=
  if a.year < b.year then true
  else if b.year < a.year then false
  else if a.month < b.month then true
  else if b.month < a.month then false
  else decide (a.day < b.day)

def Date.leb (a b : Date) : Bool := !(Date.ltb b a)

/-- Gregorian leap-year rule, as `calendar.isleap`. -/
def isLeapYear (y : Nat) : Bool := (y % 4 == 0 && y % 100 != 0) || (y % 400 == 0)

/-- Number of days in a month, as `calendar.monthrange(year, month)[1]`. -/
def monthLength (y m : Nat) : Nat :=
  if m = 2 then (if isLeapYear y then 29 else 28)
  else if m = 4 ∨ m = 6 ∨ m = 9 ∨ m = 11 then 30
  else 31

def pad2 (n : Nat) : String := if n < 10 then "0" ++ toString n else toString n

def pad4 (n : Nat) : String :=
  if n < 10 then "000" ++ toString n
  else if n < 100 then "00" ++ toString n
  else if n < 1000 then "0" ++ toString n
  else toString n

/-- Rendering of a date by `strftime('%Y/%m/%d')` (zero-padded fields). -/
def formatDate (d : Date) : String :=
  pad4 d.year ++ "/" ++ pad2 d.month ++ "/" ++ pad2 d.day

/-- The EMAIL section of `config.ini` as read through `configparser`:
an absent key reads as `None`, modelled by `none`. -/
structure EmailConfig where
  from_email : Option String
  has_attachment : Bool
  keyword : Option String
  after_date : Option String
  before_date : Option String
deriving DecidableEq, Repr

/-- Python truthiness of `cfg.get(key)`: `None` and the empty string are falsy. -/
def optTruthy : Option String → Bool
  | none => false
  | some s => decide (s ≠ "")

/-- The sender, attachment and keyword clauses appended, in this fixed order,
by both variants of `build_query`. -/
def baseParts (cfg : EmailConfig) : List String :=
  (if optTruthy cfg.from_email then ["from:" ++ cfg.from_email.getD ""] else []) ++
  (if cfg.has_attachment then ["has:attachment"] else []) ++
  (if optTruthy cfg.keyword then [cfg.keyword.getD ""] else [])

/-- Query parts built by `GmailUtility.build_query` in `Gmail_utility.py`:
optional configured after/before clauses, then, when `use_incremental` holds
and a truthy stored timestamp exists, an additional after clause carrying the
cursor. -/
def build_query_util_parts (cfg : EmailConfig) (cursor : Option String)
    (use_incremental : Bool) : List String :=
  baseParts cfg ++
  (if optTruthy cfg.after_date then ["after:" ++ cfg.after_date.getD ""] else []) ++
  (if optTruthy cfg.before_date then ["before:" ++ cfg.before_date.getD ""] else []) ++
  (if use_incremental then
    match cursor with
    | some ts => if ts = "" then [] else ["after:" ++ ts]
    | none => []
  else [])

/-- The query string of `GmailUtility.build_query`: the parts joined by one space. -/
def build_query_util (cfg : EmailConfig) (cursor : Option String)
    (use_incremental : Bool) : String :=
  String.intercalate " " (build_query_util_parts cfg cursor use_incremental)

/-- Python `str.strip()`: remove leading and trailing whitespace. -/
def pyStrip (s : String) : String :=
  String.mk (((s.data.dropWhile Char.isWhitespace).reverse.dropWhile Char.isWhitespace).reverse)

/-- Value of `cfg.get('after_date', '').strip()` in the api-server variant. -/
def configuredAfter (cfg : EmailConfig) : String := pyStrip (cfg.after_date.getD "")

/-- Value of `cfg.get('before_date', '').strip()` in the api-server variant. -/
def configuredBefore (cfg : EmailConfig) : String := pyStrip (cfg.before_date.getD "")

/-- First day of the build-time month, the api-server default after bound. -/
def defaultAfter (today : Date) : String :=
  formatDate { year := today.year, month := today.month, day := 1 }

/-- Last day of the build-time month (via `calendar.monthrange`), the
api-server default before bound. -/
def defaultBefore (today : Date) : String :=
  formatDate { year := today.year, month := today.month, day := monthLength today.year today.month }

/-- After bound of the api-server `build_query` before the incremental
override: configured value if both bounds are set, else the month default. -/
def resolvedAfterNoCursor (cfg : EmailConfig) (today : Date) : String :=
  if configuredAfter cfg = "" ∨ configuredBefore cfg = "" then defaultAfter today
  else configuredAfter cfg

/-- Before bound of the api-server `build_query`. -/
def resolvedBefore (cfg : EmailConfig) (today : Date) : String :=
  if configuredAfter cfg = "" ∨ configuredBefore cfg = "" then defaultBefore today
  else configuredBefore cfg

/-- After bound of the api-server `build_query`: the resolved range bound,
overridden by a truthy stored cursor when `use_incremental` holds. -/
def resolvedAfter (cfg : EmailConfig) (cursor : Option String)
    (use_incremental : Bool) (today : Date) : String :=
  if use_incremental then
    match cursor with
    | some ts => if ts = "" then resolvedAfterNoCursor cfg today else ts
    | none => resolvedAfterNoCursor cfg today
  else resolvedAfterNoCursor cfg today

/-- Query parts of the api-server `build_query`
(`gmail_utility_api_server.py`): base clauses, then exactly one after clause
and one before clause. -/
def build_query_api_parts (cfg : EmailConfig) (cursor : Option String)
    (use_incremental : Bool) (today : Date) : List String :=
  baseParts cfg ++
  ["after:" ++ resolvedAfter cfg cursor use_incremental today,
   "before:" ++ resolvedBefore cfg today]

/-- The query string of the api-server `build_query`. -/
def build_query_api (cfg : EmailConfig) (cursor : Option String)
    (use_incremental : Bool) (today : Date) : String :=
  String.intercalate " " (build_query_api_parts cfg cursor use_incremental today)

/-- Configuration with no filter preferences set at all. -/
def cfgNone : EmailConfig where
  from_email := none
  has_attachment := false
  keyword := none
  after_date := none
  before_date := none

/-- Configuration with only an explicit after date, used to exercise the
interaction of a configured after date with the stored cursor. -/
def cfgAfterOnly : EmailConfig where
  from_email := none
  has_attachment := false
  keyword := none
  after_date := some "2024/01/01"
  before_date := none

/-- One entry of `message['payload']['headers']`. -/
structure Header where
  name : String
  value : String
deriving DecidableEq, Repr

/-- The part of a fetched full message that `extract_metadata` consumes.
Body decoding (`get_email_body`) and attachment download
(`download_attachments`) act on external message content; their results are
carried here as the extracted body text and the list of saved attachment
paths. -/
structure MessageDetail where
  headers : List Header
  bodyText : String
  attachmentPaths : List String
deriving DecidableEq, Repr

/-- The empty dict `{}` returned by `get_message_detail` on a fetch error:
no headers, no body data, no parts. -/
def emptyDetail : MessageDetail where
  headers := []
  bodyText := ""
  attachmentPaths := []

/-- One row of the output table: the dict built by `extract_metadata`. -/
structure EmailRecord where
  Subject : String
  From : String
  Date : String
  Body : String
  Attachments : List String
deriving DecidableEq, Repr

/-- Result of fetching one listed message id: `some` detail on success,
`none` when `users().messages().get` raised (the code then substitutes `{}`
and counts one error). -/
abbrev FetchResult := Option MessageDetail

/-- Model of `get_message_detail`: the produced detail dict together with the
increment applied to `error_count` (the `except` branch returns `{}` and adds
one error). -/
def get_message_detail : FetchResult → MessageDetail × Nat
  | some d => (d, 0)
  | none => (emptyDetail, 1)

/-- ASCII lowercasing, as applied by the case-insensitive regex match that
CPython `strptime` performs on weekday and month names, and by `str.lower`
on header names. -/
def lowerChar (c : Char) : Char :=
  if 'A' ≤ c ∧ c ≤ 'Z' then Char.ofNat (c.toNat + 32) else c

/-- Python `str.lower()` on ASCII strings. -/
def pyLower (s : String) : String := String.mk (s.data.map lowerChar)

/-- Model of `extract_metadata`: scan the headers (later occurrences of a
header overwrite earlier ones, names compared lowercased), then attach body
text and attachment paths. -/
def extract_metadata (m : MessageDetail) : EmailRecord :=
  let step := fun (d : EmailRecord) (h : Header) =>
    let n := pyLower h.name
    if n = "subject" then { d with Subject := h.value }
    else if n = "from" then { d with From := h.value }
    else if n = "date" then { d with Date := h.value }
    else d
  let d0 : EmailRecord :=
    { Subject := "", From := "", Date := "", Body := "", Attachments := [] }
  let d1 := m.headers.foldl step d0
  { d1 with Body := m.bodyText, Attachments := m.attachmentPaths }

/-- The record the run loop appends for one fetch result. -/
def recordOf (fr : FetchResult) : EmailRecord :=
  extract_metadata (get_message_detail fr).1


def digitVal (c : Char) : Nat := c.toNat - 48

/-- Matches the regex class `[1-9]`. -/
def isDigit19 (c : Char) : Bool := decide ('1' ≤ c ∧ c ≤ '9')

/-- Abbreviated weekday names recognised by `%a` (lowercased). -/
def weekdayAbbrevs : List String :=
  ["mon", "tue", "wed", "thu", "fri", "sat", "sun"]

/-- Abbreviated month names recognised by `%b` (lowercased). -/
def monthAbbrevs : List String :=
  ["jan", "feb", "mar", "apr", "may", "jun", "jul", "aug", "sep", "oct", "nov", "dec"]

/-- Position of a name in an abbreviation list. -/
def abbrevIndex : List String → String → Option Nat
  | [], _ => none
  | n :: rest, w => if n = w then some 0 else (abbrevIndex rest w).map (· + 1)

/-- Consume a three-letter abbreviation from the front of the input,
returning its index in the list. -/
def takeAbbrev (names : List String) : List Char → Option (Nat × List Char)
  | c1 :: c2 :: c3 :: rest =>
    match abbrevIndex names (String.mk [c1, c2, c3]) with
    | some i => some (i, rest)
    | none => none
  | _ => none

/-- Consume one-or-more whitespace, as the regex `\s+` that CPython
substitutes for a whitespace character of the format string. -/
def parseWs1 : List Char → Option (List Char)
  | [] => none
  | c :: cs => if c.isWhitespace then some (cs.dropWhile Char.isWhitespace) else none

/-- Consume a day of month, as the `%d` regex
alternation `3[01] | [12]\d | 0[1-9] | [1-9]` (leftmost match first). -/
def parseDay : List Char → Option (Nat × List Char)
  | c1 :: c2 :: rest =>
    if c1 = '3' && (c2 = '0' || c2 = '1') then some (30 + digitVal c2, rest)
    else if (c1 = '1' || c1 = '2') && c2.isDigit then
      some (digitVal c1 * 10 + digitVal c2, rest)
    else if c1 = '0' && isDigit19 c2 then some (digitVal c2, rest)
    else if isDigit19 c1 then some (digitVal c1, c2 :: rest)
    else none
  | [c1] => if isDigit19 c1 then some (digitVal c1, []) else none
  | [] => none

/-- Consume a year, as the `%Y` regex of exactly four digits. -/
def parseYear : List Char → Option (Nat × List Char)
  | a :: b :: c :: d :: rest =>
    if a.isDigit && b.isDigit && c.isDigit && d.isDigit then
      some (digitVal a * 1000 + digitVal b * 100 + digitVal c * 10 + digitVal d, rest)
    else none
  | _ => none

/-- CPython `datetime.strptime(data, '%a, %d %b %Y')` on an already lowercased
character list: weekday abbreviation, literal comma, whitespace, day,
whitespace, month abbreviation, whitespace, four-digit year; the whole input
must be consumed (else "unconverted data remains"), and the resulting
`datetime` constructor enforces year at least 1 and day within the month. -/
def parseDate16 (cs : List Char) : Option Date :=
  match takeAbbrev weekdayAbbrevs cs with
  | none => none
  | some (_, cs1) =>
    match cs1 with
    | ',' :: cs2 =>
      match parseWs1 cs2 with
      | none => none
      | some cs3 =>
        match parseDay cs3 with
        | none => none
        | some (day, cs4) =>
          match parseWs1 cs4 with
          | none => none
          | some cs5 =>
            match takeAbbrev monthAbbrevs cs5 with
            | none => none
            | some (monthIdx, cs6) =>
              match parseWs1 cs6 with
              | none => none
              | some cs7 =>
                match parseYear cs7 with
                | none => none
                | some (year, cs8) =>
                  if cs8.isEmpty && decide (1 ≤ year) &&
                      decide (day ≤ monthLength year (monthIdx + 1)) then
                    some { year := year, month := monthIdx + 1, day := day }
                  else none
    | _ => none

/-- The date-tracking parse of the run loop:
`datetime.strptime(meta['Date'][:16], '%a, %d %b %Y')`, where Python slicing
takes the first sixteen characters. -/
def trackDate (dateHeader : String) : Option Date :=
  parseDate16 ((dateHeader.data.take 16).map lowerChar)

/-- One appended row of the job-statistics table (`_log_job_stats`).
Wall-clock fields (start, end, duration) and the output path are not part of
any verified property and are omitted. -/
structure JobStatsRow where
  job_name : String
  emails_processed : Nat
  errors_encountered : Nat
  status : String
deriving DecidableEq, Repr

/-- Persistent and in-object state touched by one ingestion run:
the output table (`output_csv`, `none` while the file does not exist), the
cursor file (`last_run_tracker`, stored at day precision), the
job-statistics table, and the two counters of the utility object. -/
structure RunState where
  output : Option (List EmailRecord)
  tracker : Option Date
  statsRows : List JobStatsRow
  processed_count : Nat
  error_count : Nat
deriving DecidableEq, Repr

/-- Accumulator of the message loop in `fetch_and_store_emails`. -/
structure LoopAcc where
  records : List EmailRecord
  latest_date : Option Date
  processed : Nat
  errors : Nat
deriving DecidableEq, Repr

/-- Update of `latest_date` by one parse attempt: an unparseable date leaves
it unchanged (`except: continue`); a parsed date replaces it when it is the
first one or strictly greater. -/
def updateLatest (acc : Option Date) : Option Date → Option Date
  | none => acc
  | some d =>
    match acc with
    | none => some d
    | some l => if Date.ltb l d then some d else some l

/-- One iteration of the message loop: fetch (with error counting), extract,
append the record, bump `processed_count`, attempt the date parse. -/
def stepMessage (acc : LoopAcc) (fr : FetchResult) : LoopAcc where
  records := acc.records ++ [recordOf fr]
  latest_date := updateLatest acc.latest_date (trackDate (recordOf fr).Date)
  processed := acc.processed + 1
  errors := acc.errors + (get_message_detail fr).2

/-- Records appended by the loop, one per listed message. -/
def recordsOf (frs : List FetchResult) : List EmailRecord :=
  frs.map recordOf

/-- Number of per-message fetch errors in the loop. -/
def errorsOf (frs : List FetchResult) : Nat :=
  (frs.map (fun fr => (get_message_detail fr).2)).sum

/-- The tracked maximum parsed date after the loop, starting from `init`. -/
def foldLatest (init : Option Date) (frs : List FetchResult) : Option Date :=
  frs.foldl (fun acc fr => updateLatest acc (trackDate (recordOf fr).Date)) init

/-- Worker of `dedupKeepFirst`: keep a row only when it was not seen before. -/
def dedupGo (seen : List EmailRecord) : List EmailRecord → List EmailRecord
  | [] => []
  | r :: rs => if r ∈ seen then dedupGo seen rs else r :: dedupGo (seen ++ [r]) rs

/-- Model of `pandas.concat(...).drop_duplicates()`: remove exact full-row
duplicates, keeping the first occurrence. -/
def dedupKeepFirst (rows : List EmailRecord) : List EmailRecord :=
  dedupGo [] rows

/-- Number of occurrences of a row in a table. -/
def occCount (a : EmailRecord) : List EmailRecord → Nat
  | [] => 0
  | b :: l => (if b = a then 1 else 0) + occCount a l

/-- The row `_log_job_stats` appends for the current state of the object. -/
def mkStatsRow (s : RunState) : JobStatsRow where
  job_name := "Gmail_Email_Ingestion"
  emails_processed := s.processed_count
  errors_encountered := s.error_count
  status := if s.error_count = 0 then "Completed" else "Completed with errors"

/-- Model of `_log_job_stats`: read the existing statistics table (or start
an empty one), concatenate one new row, write it back. -/
def logJobStats (s : RunState) : RunState :=
  { s with statsRows := s.statsRows ++ [mkStatsRow s] }

/-- The `try` block of `fetch_and_store_emails`: run the message loop over
the fetch results the Message Source returned for the built query; on zero
records return without touching output or cursor; otherwise concatenate with
the existing table, drop exact duplicates, write, and, when a maximum parsed
date exists, overwrite the cursor with it. -/
def run_try_body (s : RunState) (frs : List FetchResult) : RunState :=
  let acc := frs.foldl stepMessage
    { records := [], latest_date := none,
      processed := s.processed_count, errors := s.error_count }
  if acc.records.isEmpty then
    { s with processed_count := acc.processed, error_count := acc.errors }
  else
    let newTable :=
      match s.output with
      | some existing => dedupKeepFirst (existing ++ acc.records)
      | none => acc.records
    { output := some newTable,
      tracker :=
        match acc.latest_date with
        | some d => some d
        | none => s.tracker,
      statsRows := s.statsRows,
      processed_count := acc.processed,
      error_count := acc.errors }

/-- Model of `fetch_and_store_emails` for a run whose `try` block completes
without an unexpected exception: the body runs, then `finally` appends the
statistics row. The fetch results stand for what the external Message Source
returned for the built query. -/
def fetch_and_store_emails (s : RunState) (frs : List FetchResult) : RunState :=
  logJobStats (run_try_body s frs)

/-- Outcome of the `try` block of `fetch_and_store_emails` when exceptions
are possible: `Except.ok` carries the completed state; `Except.error`
carries the state at the raise point together with the exception text. -/
abbrev TryOutcome := Except (RunState × String) RunState

/-- State held when the `try` block finishes or is aborted by an exception. -/
def tryOutcomeState : TryOutcome → RunState
  | Except.ok s => s
  | Except.error (s, _) => s

/-- Top-level control flow of `fetch_and_store_emails`: a completed body
falls through to `finally`; a raised exception is caught by
`except Exception`, logged, and likewise falls through to `finally`, which
appends the statistics row. Both paths return normally. -/
def fetch_and_store_outcome : TryOutcome → RunState
  | Except.ok s1 => logJobStats s1
  | Except.error (s1, _) => logJobStats s1

/-- State at process start: no output table, no cursor file, no statistics,
both counters zero (`__init__`). -/
def initState : RunState where
  output := none
  tracker := none
  statsRows := []
  processed_count := 0
  error_count := 0

/-! Helper lemmas about the message loop and the run. -/

theorem records_foldl (frs : List FetchResult) (acc : LoopAcc) :
    (frs.foldl stepMessage acc).records = acc.records ++ recordsOf frs := by
  induction frs generalizing acc with
  | nil => simp [recordsOf]
  | cons fr rest ih => simp [List.foldl_cons, ih, stepMessage, recordsOf]

theorem latest_foldl (frs : List FetchResult) (acc : LoopAcc) :
    (frs.foldl stepMessage acc).latest_date = foldLatest acc.latest_date frs := by
  induction frs generalizing acc with
  | nil => simp [foldLatest]
  | cons fr rest ih => simp [List.foldl_cons, ih, stepMessage, foldLatest]

theorem processed_foldl (frs : List FetchResult) (acc : LoopAcc) :
    (frs.foldl stepMessage acc).processed = acc.processed + frs.length := by
  induction frs generalizing acc with
  | nil => simp
  | cons fr rest ih =>
    simp [List.foldl_cons, ih, stepMessage]
    omega

theorem errors_foldl (frs : List FetchResult) (acc : LoopAcc) :
    (frs.foldl stepMessage acc).errors = acc.errors + errorsOf frs := by
  induction frs generalizing acc with
  | nil => simp [errorsOf]
  | cons fr rest ih =>
    simp [List.foldl_cons, ih, stepMessage, errorsOf]
    omega

theorem run_try_body_nil (s : RunState) : run_try_body s [] = s := by
  simp [run_try_body]

theorem run_try_body_ne_nil (s : RunState) (frs : List FetchResult) (h : frs ≠ []) :
    run_try_body s frs =
      { output := some (match s.output with
          | some existing => dedupKeepFirst (existing ++ recordsOf frs)
          | none => recordsOf frs),
        tracker := match foldLatest none frs with
          | some d => some d
          | none => s.tracker,
        statsRows := s.statsRows,
        processed_count := s.processed_count + frs.length,
        error_count := s.error_count + errorsOf frs } := by
  have hrec : recordsOf frs ≠ [] := by
    simp [recordsOf, h]
  simp only [run_try_body, records_foldl, latest_foldl, processed_foldl, errors_foldl,
    List.nil_append]
  rw [if_neg (by simpa [List.isEmpty_iff] using hrec)]

theorem statsRows_run_try_body (s : RunState) (frs : List FetchResult) :
    (run_try_body s frs).statsRows = s.statsRows := by
  cases frs with
  | nil => rw [run_try_body_nil]
  | cons fr rest => rw [run_try_body_ne_nil s _ (by simp)]

theorem tracker_fetch (s : RunState) (frs : List FetchResult) :
    (fetch_and_store_emails s frs).tracker =
      match foldLatest none frs with
      | some d => some d
      | none => s.tracker := by
  cases frs with
  | nil => simp [fetch_and_store_emails, run_try_body_nil, logJobStats, foldLatest]
  | cons fr rest =>
    rw [fetch_and_store_emails, run_try_body_ne_nil s _ (by simp)]
    rfl

theorem output_fetch_ne_nil (s : RunState) (frs : List FetchResult) (h : frs ≠ []) :
    (fetch_and_store_emails s frs).output =
      some (match s.output with
        | some existing => dedupKeepFirst (existing ++ recordsOf frs)
        | none => recordsOf frs) := by
  rw [fetch_and_store_emails, run_try_body_ne_nil s frs h]
  rfl

theorem counters_fetch (s : RunState) (frs : List FetchResult) :
    (fetch_and_store_emails s frs).processed_count = s.processed_count + frs.length ∧
    (fetch_and_store_emails s frs).error_count = s.error_count + errorsOf frs := by
  cases frs with
  | nil =>
    simp [fetch_and_store_emails, run_try_body_nil, logJobStats, errorsOf]
  | cons fr rest =>
    rw [fetch_and_store_emails, run_try_body_ne_nil s _ (by simp)]
    exact ⟨rfl, rfl⟩

theorem statsRows_fetch (s : RunState) (frs : List FetchResult) :
    (fetch_and_store_emails s frs).statsRows =
      s.statsRows ++ [mkStatsRow (run_try_body s frs)] := by
  rw [fetch_and_store_emails, logJobStats, statsRows_run_try_body]

theorem ltb_irrefl (d : Date) : Date.ltb d d = false := by
  simp [Date.ltb]

theorem leb_refl (d : Date) : Date.leb d d = true := by
  simp [Date.leb, ltb_irrefl]

theorem foldLatest_all_none (frs : List FetchResult) (init : Option Date)
    (h : ∀ fr ∈ frs, trackDate (recordOf fr).Date = none) :
    foldLatest init frs = init := by
  induction frs generalizing init with
  | nil => rfl
  | cons fr rest ih =>
    have h1 : trackDate (recordOf fr).Date = none := h fr (List.mem_cons_self fr rest)
    have h2 : ∀ x ∈ rest, trackDate (recordOf x).Date = none :=
      fun x hx => h x (List.mem_cons_of_mem fr hx)
    show foldLatest (updateLatest init (trackDate (recordOf fr).Date)) rest = init
    rw [h1]
    exact ih init h2

theorem foldLatest_ge (c : Date) (frs : List FetchResult) (init : Option Date)
    (hinit : ∀ l, init = some l → Date.leb c l = true)
    (hf : ∀ fr ∈ frs, ∀ d, trackDate (recordOf fr).Date = some d → Date.leb c d = true) :
    ∀ l, foldLatest init frs = some l → Date.leb c l = true := by
  induction frs generalizing init with
  | nil => exact hinit
  | cons fr rest ih =>
    intro l hl
    have hstep : ∀ l', updateLatest init (trackDate (recordOf fr).Date) = some l' →
        Date.leb c l' = true := by
      intro l' hl'
      cases htd : trackDate (recordOf fr).Date with
      | none =>
        rw [htd] at hl'
        exact hinit l' hl'
      | some d =>
        have hd := hf fr (List.mem_cons_self fr rest) d htd
        rw [htd] at hl'
        cases hi : init with
        | none =>
          rw [hi] at hl'
          simp only [updateLatest] at hl'
          cases hl'
          exact hd
        | some l0 =>
          have hl0 := hinit l0 hi
          rw [hi] at hl'
          simp only [updateLatest] at hl'
          by_cases hlt : Date.ltb l0 d = true
          · rw [if_pos hlt] at hl'
            cases hl'
            exact hd
          · rw [if_neg hlt] at hl'
            cases hl'
            exact hl0
    exact ih (updateLatest init (trackDate (recordOf fr).Date)) hstep
      (fun x hx => hf x (List.mem_cons_of_mem fr hx)) l hl

theorem occCount_dedupGo (a : EmailRecord) (l : List EmailRecord) :
    ∀ seen, occCount a (dedupGo seen l) = if a ∈ l ∧ a ∉ seen then 1 else 0 := by
  induction l with
  | nil =>
    intro seen
    simp [dedupGo, occCount]
  | cons r rs ih =>
    intro seen
    by_cases hr : r ∈ seen
    · rw [dedupGo, if_pos hr, ih]
      by_cases ha : a = r
      · subst ha
        simp [hr]
      · simp [List.mem_cons, ha]
    · rw [dedupGo, if_neg hr, occCount, ih]
      by_cases ha : a = r
      · subst ha
        simp [hr, List.mem_append]
      · have : ¬r = a := fun hh => ha hh.symm
        simp only [if_neg this, List.mem_cons, List.mem_append, List.mem_singleton]
        by_cases hmem : a ∈ rs <;> by_cases hseen : a ∈ seen <;> simp [ha, hmem, hseen]

theorem occCount_dedupKeepFirst (a : EmailRecord) (l : List EmailRecord) (h : a ∈ l) :
    occCount a (dedupKeepFirst l) = 1 := by
  rw [dedupKeepFirst, occCount_dedupGo]
  simp [h]

/-! Helper lemmas for the fixed-length date-parse failure on single-digit
days: a successful parse must end exactly at the fourth year digit, so an
input whose last character is not a digit never parses. -/

theorem dropWhile_isSuffix (p : Char → Bool) (l : List Char) :
    List.IsSuffix (l.dropWhile p) l := by
  induction l with
  | nil => exact List.suffix_refl []
  | cons c cs ih =>
    by_cases hc : p c
    · rw [List.dropWhile_cons_of_pos hc]
      exact ih.trans (List.suffix_cons c cs)
    · rw [List.dropWhile_cons_of_neg hc]

theorem parseWs1_suffix (l l' : List Char) (h : parseWs1 l = some l') :
    List.IsSuffix l' l := by
  cases l with
  | nil => simp [parseWs1] at h
  | cons c cs =>
    rw [parseWs1] at h
    by_cases hc : c.isWhitespace
    · rw [if_pos hc] at h
      cases h
      exact (dropWhile_isSuffix Char.isWhitespace cs).trans (List.suffix_cons c cs)
    · rw [if_neg hc] at h
      cases h

theorem takeAbbrev_shape (names : List String) (l : List Char) (k : Nat) (rest : List Char)
    (h : takeAbbrev names l = some (k, rest)) :
    ∃ a b c, l = a :: b :: c :: rest := by
  match l with
  | [] => simp [takeAbbrev] at h
  | [c1] => simp [takeAbbrev] at h
  | [c1, c2] => simp [takeAbbrev] at h
  | c1 :: c2 :: c3 :: rs =>
    rw [takeAbbrev] at h
    cases hidx : abbrevIndex names (String.mk [c1, c2, c3]) with
    | none =>
      rw [hidx] at h
      cases h
    | some i =>
      rw [hidx] at h
      cases h
      exact ⟨c1, c2, c3, rfl⟩

theorem parseDay_suffix (l : List Char) (n : Nat) (rest : List Char)
    (h : parseDay l = some (n, rest)) : List.IsSuffix rest l := by
  match l with
  | [] => simp [parseDay] at h
  | [c1] =>
    rw [parseDay] at h
    by_cases h1 : isDigit19 c1 = true
    · rw [if_pos h1] at h
      cases h
      exact List.nil_suffix
    · rw [if_neg h1] at h
      cases h
  | c1 :: c2 :: rs =>
    rw [parseDay] at h
    by_cases h1 : (c1 = '3' && (c2 = '0' || c2 = '1')) = true
    · rw [if_pos h1] at h
      cases h
      exact ⟨[c1, c2], rfl⟩
    · rw [if_neg h1] at h
      by_cases h2 : ((c1 = '1' || c1 = '2') && c2.isDigit) = true
      · rw [if_pos h2] at h
        cases h
        exact ⟨[c1, c2], rfl⟩
      · rw [if_neg h2] at h
        by_cases h3 : (c1 = '0' && isDigit19 c2) = true
        · rw [if_pos h3] at h
          cases h
          exact ⟨[c1, c2], rfl⟩
        · rw [if_neg h3] at h
          by_cases h4 : isDigit19 c1 = true
          · rw [if_pos h4] at h
            cases h
            exact ⟨[c1], rfl⟩
          · rw [if_neg h4] at h
            cases h

theorem parseYear_shape (l : List Char) (y : Nat) (rest : List Char)
    (h : parseYear l = some (y, rest)) :
    ∃ d1 d2 d3 d4, l = d1 :: d2 :: d3 :: d4 :: rest ∧ d4.isDigit = true := by
  match l with
  | [] => simp [parseYear] at h
  | [c1] => simp [parseYear] at h
  | [c1, c2] => simp [parseYear] at h
  | [c1, c2, c3] => simp [parseYear] at h
  | c1 :: c2 :: c3 :: c4 :: rs =>
    rw [parseYear] at h
    by_cases hd : (c1.isDigit && c2.isDigit && c3.isDigit && c4.isDigit) = true
    · rw [if_pos hd] at h
      cases h
      refine ⟨c1, c2, c3, c4, rfl, ?_⟩
      simp only [Bool.and_eq_true] at hd
      exact hd.2
    · rw [if_neg hd] at h
      cases h

theorem parseDate16_append_not_digit (xs : List Char) (c : Char) (hc : c.isDigit = false) :
    parseDate16 (xs ++ [c]) = none := by
  unfold parseDate16
  split
  · rfl
  rename_i k1 cs1 h1
  split
  rotate_left
  · rfl
  rename_i cs2
  split
  · rfl
  rename_i cs3 h3
  split
  · rfl
  rename_i day cs4 h4
  split
  · rfl
  rename_i cs5 h5
  split
  · rfl
  rename_i mi cs6 h6
  split
  · rfl
  rename_i cs7 h7
  split
  · rfl
  rename_i year cs8 h8
  by_cases hemp : cs8 = []
  · exfalso
    subst hemp
    obtain ⟨a1, a2, a3, hsh1⟩ := takeAbbrev_shape _ _ _ _ h1
    have s2 : List.IsSuffix cs2 (xs ++ [c]) := by
      rw [hsh1]
      exact ⟨[a1, a2, a3, ','], rfl⟩
    have s3 : List.IsSuffix cs3 (xs ++ [c]) := (parseWs1_suffix _ _ h3).trans s2
    have s4 : List.IsSuffix cs4 (xs ++ [c]) := (parseDay_suffix _ _ _ h4).trans s3
    have s5 : List.IsSuffix cs5 (xs ++ [c]) := (parseWs1_suffix _ _ h5).trans s4
    obtain ⟨b1, b2, b3, hsh6⟩ := takeAbbrev_shape _ _ _ _ h6
    have s6 : List.IsSuffix cs6 (xs ++ [c]) := by
      refine List.IsSuffix.trans ?_ s5
      rw [hsh6]
      exact ⟨[b1, b2, b3], rfl⟩
    have s7 : List.IsSuffix cs7 (xs ++ [c]) := (parseWs1_suffix _ _ h7).trans s6
    obtain ⟨d1, d2, d3, d4, hsh8, hdig⟩ := parseYear_shape _ _ _ h8
    obtain ⟨t, ht⟩ := s7
    rw [hsh8] at ht
    have hlast : (t ++ [d1, d2, d3, d4]).getLast? = some d4 := by
      have : t ++ [d1, d2, d3, d4] = (t ++ [d1, d2, d3]) ++ [d4] := by
        simp
      rw [this]
      exact List.getLast?_concat _
    rw [ht] at hlast
    rw [List.getLast?_concat] at hlast
    have hcd : c = d4 := Option.some.inj hlast
    rw [hcd, hdig] at hc
    cases hc
  · have h8e : cs8.isEmpty = false := by
      cases cs8 with
      | nil => exact absurd rfl hemp
      | cons x l => rfl
    simp [h8e]

theorem singleDigitHeader_track_none (w m time : String) (d y1 y2 y3 y4 : Char)
    (hw : w.length = 3) (hm : m.length = 3) :
    trackDate (w ++ ", " ++ String.singleton d ++ " " ++ m ++ " " ++
      String.mk [y1, y2, y3, y4] ++ " " ++ time) = none := by
  rw [trackDate]
  have hcomma : (", ").data = [',', ' '] := rfl
  have hspace : (" ").data = [' '] := rfl
  have hsing : (String.singleton d).data = [d] := rfl
  have hmk : (String.mk [y1, y2, y3, y4]).data = [y1, y2, y3, y4] := rfl
  have hdata : (w ++ ", " ++ String.singleton d ++ " " ++ m ++ " " ++
      String.mk [y1, y2, y3, y4] ++ " " ++ time).data =
      (w.data ++ ([',', ' '] ++ [d] ++ [' '] ++ m.data ++ [' '] ++ [y1, y2, y3, y4])) ++
        (' ' :: time.data) := by
    simp [String.data_append, hcomma, hspace, hsing, hmk]
  rw [hdata]
  have hlen : (w.data ++ ([',', ' '] ++ [d] ++ [' '] ++ m.data ++ [' '] ++
      [y1, y2, y3, y4])).length = 15 := by
    have hwl : w.data.length = 3 := hw
    have hml : m.data.length = 3 := hm
    simp [hwl, hml]
  rw [List.take_append_eq_append_take, hlen]
  rw [List.take_of_length_le (le_of_eq_of_le hlen (by omega))]
  have htake1 : (' ' :: time.data).take (16 - 15) = [' '] := rfl
  rw [htake1, List.map_append]
  have hmap : ([' '].map lowerChar) = [' '] := by decide
  rw [hmap]
  exact parseDate16_append_not_digit _ ' ' (by decide)

/-! Concrete fixtures used by witnesses and counterexamples. -/

/-- Fixed build-time date used by concrete instances. -/
def dOct15 : Date where
  year := 2024
  month := 10
  day := 15

def dOct23 : Date where
  year := 2024
  month := 10
  day := 23

/-- Fetched message whose date header parses to 2024-10-23. -/
def detailOct23 : MessageDetail where
  headers := [{ name := "Date", value := "Wed, 23 Oct 2024 10:00:00 +0000" }]
  bodyText := ""
  attachmentPaths := []

/-- Fetched message whose date header parses to 2024-10-24. -/
def detailOct24 : MessageDetail where
  headers := [{ name := "Date", value := "Thu, 24 Oct 2024 09:30:00 +0000" }]
  bodyText := ""
  attachmentPaths := []

/-- Fetched message without a date header: its date field stays empty and the
date parse fails. -/
def detailNoDate : MessageDetail where
  headers := [{ name := "Subject", value := "hello" }]
  bodyText := ""
  attachmentPaths := []

/-- Fetched message whose date header carries a single-digit day of month. -/
def detailDayThree : MessageDetail where
  headers := [{ name := "Date", value := "Wed, 3 Oct 2024 10:00:00 +0000" }]
  bodyText := ""
  attachmentPaths := []

/-! Claim theorems. -/

/-- Counterexample to claim C1: in `GmailUtility.build_query` of
`Gmail_utility.py`, with `after_date` configured as `2024/01/01` and a stored
cursor `2024/02/01`, the incremental query carries BOTH after clauses — the
configured after-date clause is not removed, contradicting the claim that no
after clause carries the configured `after_date`. -/
theorem C1_counterexample :
    cfgAfterOnly.after_date = some "2024/01/01" ∧
    build_query_util cfgAfterOnly (some "2024/02/01") true =
      "after:2024/01/01 after:2024/02/01" :=
  ⟨rfl, rfl⟩

/-- C1 (amended): in the api-server `build_query`, a truthy stored Cursor
overrides the after bound — the emitted after clause equals the cursor and no
clause carries the configured `after_date`; in `GmailUtility.build_query`,
the cursor's after clause is instead appended in addition to the configured
after-date clause, so both appear. -/
theorem C1_cursor_override (cfg : EmailConfig) (ts : String) (today : Date)
    (hts : ts ≠ "") :
    resolvedAfter cfg (some ts) true today = ts ∧
    build_query_api_parts cfg (some ts) true today =
      baseParts cfg ++ ["after:" ++ ts, "before:" ++ resolvedBefore cfg today] ∧
    (optTruthy cfg.after_date = true →
      ("after:" ++ cfg.after_date.getD "") ∈ build_query_util_parts cfg (some ts) true ∧
      ("after:" ++ ts) ∈ build_query_util_parts cfg (some ts) true) := by
  have hres : resolvedAfter cfg (some ts) true today = ts := by
    simp [resolvedAfter, hts]
  refine ⟨hres, ?_, ?_⟩
  · rw [build_query_api_parts, hres]
  · intro hset
    constructor
    · simp [build_query_util_parts, hset]
    · simp [build_query_util_parts, hts]

/-- Witness for C1 (amended) at the concrete configuration with
`after_date = 2024/01/01`, cursor `2024/02/01` and October 2024 build time. -/
theorem C1_witness :
    "2024/02/01" ≠ "" ∧
    (resolvedAfter cfgAfterOnly (some "2024/02/01") true dOct15 = "2024/02/01" ∧
      build_query_api_parts cfgAfterOnly (some "2024/02/01") true dOct15 =
        baseParts cfgAfterOnly ++
          ["after:" ++ "2024/02/01", "before:" ++ resolvedBefore cfgAfterOnly dOct15] ∧
      (optTruthy cfgAfterOnly.after_date = true →
        ("after:" ++ cfgAfterOnly.after_date.getD "") ∈
          build_query_util_parts cfgAfterOnly (some "2024/02/01") true ∧
        ("after:" ++ "2024/02/01") ∈
          build_query_util_parts cfgAfterOnly (some "2024/02/01") true)) :=
  ⟨by decide, C1_cursor_override cfgAfterOnly "2024/02/01" dOct15 (by decide)⟩

/-- C2: the cursor is monotone across two consecutive runs — provided the
Message Source honours the incremental after clause (every successfully
parsed date of the second run's fetches is at least the cursor stored by the
first run), the cursor after the second run is a date at least the first
run's cursor; and a run none of whose records' date headers parse leaves the
stored cursor unchanged. -/
theorem C2_cursor_monotone (s0 : RunState) (f1 f2 g : List FetchResult) (c1 : Date)
    (h1 : (fetch_and_store_emails s0 f1).tracker = some c1)
    (hq : ∀ fr ∈ f2, ∀ d, trackDate (recordOf fr).Date = some d → Date.leb c1 d = true)
    (hg : ∀ fr ∈ g, trackDate (recordOf fr).Date = none) :
    (∃ c2, (fetch_and_store_emails (fetch_and_store_emails s0 f1) f2).tracker = some c2 ∧
      Date.leb c1 c2 = true) ∧
    (fetch_and_store_emails (fetch_and_store_emails s0 f1) g).tracker = some c1 := by
  constructor
  · rw [tracker_fetch]
    cases hfl : foldLatest none f2 with
    | none => exact ⟨c1, h1, leb_refl c1⟩
    | some dmax =>
      exact ⟨dmax, rfl, foldLatest_ge c1 f2 none (fun l hl => nomatch hl) hq dmax hfl⟩
  · rw [tracker_fetch, foldLatest_all_none g none hg]
    exact h1

/-- Witness for C2: a first run ingesting a message dated 2024-10-23, then a
second run fetching a message dated 2024-10-24 (cursor advances), and
alternatively a second run fetching only a record without a parseable date
(cursor unchanged). -/
theorem C2_witness :
    (∃ c2, (fetch_and_store_emails (fetch_and_store_emails initState [some detailOct23])
        [some detailOct24]).tracker = some c2 ∧ Date.leb dOct23 c2 = true) ∧
    (fetch_and_store_emails (fetch_and_store_emails initState [some detailOct23])
        [some detailNoDate]).tracker = some dOct23 :=
  C2_cursor_monotone initState [some detailOct23] [some detailOct24] [some detailNoDate]
    dOct23 rfl
    (by
      intro fr hfr d hd
      rw [List.mem_singleton] at hfr
      subst hfr
      have hval : trackDate (recordOf (some detailOct24)).Date =
          some { year := 2024, month := 10, day := 24 } := rfl
      rw [hval] at hd
      cases hd
      decide)
    (by
      intro fr hfr
      rw [List.mem_singleton] at hfr
      subst hfr
      rfl)

/-- Counterexample to claim C3: a run whose single listed message fails to
fetch still appends a record for it — the output table receives the record
extracted from the empty dict `{}` — while the error counter is incremented.
The claim that no record is added for a failing message is therefore false. -/
theorem C3_counterexample :
    (fetch_and_store_emails initState [none]).output =
      some [extract_metadata emptyDetail] ∧
    (fetch_and_store_emails initState [none]).error_count = 1 :=
  ⟨rfl, rfl⟩

/-- C3 (amended): a message whose full-content fetch fails does not abort the
run — the remaining identifiers are still processed and the error counter
gains one — but instead of being skipped it contributes a record extracted
from the empty dict (all fields empty) to the output rows. -/
theorem C3_failed_fetch_behavior (s : RunState) (pre post : List FetchResult) :
    recordsOf (pre ++ none :: post) =
      recordsOf pre ++ extract_metadata emptyDetail :: recordsOf post ∧
    (fetch_and_store_emails s (pre ++ none :: post)).error_count =
      s.error_count + (errorsOf pre + 1 + errorsOf post) ∧
    (fetch_and_store_emails s (pre ++ none :: post)).processed_count =
      s.processed_count + (pre.length + 1 + post.length) := by
  refine ⟨?_, ?_, ?_⟩
  · simp [recordsOf, recordOf, get_message_detail]
  · rw [(counters_fetch s _).2]
    have he : errorsOf (pre ++ none :: post) = errorsOf pre + 1 + errorsOf post := by
      simp [errorsOf, get_message_detail]
      omega
    rw [he]
  · rw [(counters_fetch s _).1]
    simp
    omega

/-- Counterexample to claim C5: for the configuration with nothing set and no
cursor, `GmailUtility.build_query` returns the empty string, not the two
default-month date clauses. -/
theorem C5_counterexample : build_query_util cfgNone none true = "" := rfl

/-- C5 (amended): for the all-empty configuration with no cursor, the
api-server `build_query` returns exactly the two default-month date clauses
joined by one space — in particular a non-empty string — while
`GmailUtility.build_query` returns the empty string for that configuration. -/
theorem C5_default_clauses (today : Date) :
    build_query_api cfgNone none true today =
      ("after:" ++ defaultAfter today) ++ " " ++ ("before:" ++ defaultBefore today) ∧
    build_query_api cfgNone none true today ≠ "" ∧
    build_query_util cfgNone none true = "" := by
  have hparts : build_query_api_parts cfgNone none true today =
      ["after:" ++ defaultAfter today, "before:" ++ defaultBefore today] := by
    simp [build_query_api_parts, baseParts, cfgNone, optTruthy, resolvedAfter,
      resolvedAfterNoCursor, resolvedBefore, configuredAfter, configuredBefore, pyStrip]
  have heq : build_query_api cfgNone none true today =
      ("after:" ++ defaultAfter today) ++ " " ++ ("before:" ++ defaultBefore today) := by
    rw [build_query_api, hparts]
    rfl
  refine ⟨heq, ?_, rfl⟩
  rw [heq]
  intro h
  have hd := congrArg String.data h
  have hlit : ("after:").data = ['a', 'f', 't', 'e', 'r', ':'] := rfl
  simp [String.data_append, hlit] at hd

/-- C6: when two consecutive runs both fetch a row that is identical in every
column, the output table after the second run contains that row exactly once:
persistence concatenates the existing table with the new rows and removes
exact full-row duplicates. -/
theorem C6_dedup_across_runs (s0 : RunState) (f1 f2 : List FetchResult) (row : EmailRecord)
    (h1 : row ∈ recordsOf f1) (h2 : row ∈ recordsOf f2) :
    ∃ t, (fetch_and_store_emails (fetch_and_store_emails s0 f1) f2).output = some t ∧
      occCount row t = 1 := by
  have hf1 : f1 ≠ [] := by
    intro h
    subst h
    simp [recordsOf] at h1
  have hf2 : f2 ≠ [] := by
    intro h
    subst h
    simp [recordsOf] at h2
  obtain ⟨t1, ht1⟩ : ∃ t1, (fetch_and_store_emails s0 f1).output = some t1 := by
    rw [output_fetch_ne_nil s0 f1 hf1]
    exact ⟨_, rfl⟩
  rw [output_fetch_ne_nil _ f2 hf2, ht1]
  exact ⟨_, rfl, occCount_dedupKeepFirst row _ (List.mem_append_right t1 h2)⟩

/-- Witness for C6: both runs fetch the same message, so its row appears in
both record sets and ends up exactly once in the final table. -/
theorem C6_witness :
    recordOf (some detailOct23) ∈ recordsOf [some detailOct23] ∧
    (∃ t, (fetch_and_store_emails (fetch_and_store_emails initState [some detailOct23])
        [some detailOct23]).output = some t ∧ occCount (recordOf (some detailOct23)) t = 1) :=
  ⟨List.mem_singleton.mpr rfl,
    C6_dedup_across_runs initState [some detailOct23] [some detailOct23]
      (recordOf (some detailOct23)) (List.mem_singleton.mpr rfl) (List.mem_singleton.mpr rfl)⟩

/-- C7: a run whose listing yields zero messages writes nothing to the output
table and does not update the cursor, yet still appends exactly one
job-statistics row whose processed-emails field is 0 (for a freshly
initialised utility object, whose processed counter starts at zero). -/
theorem C7_zero_messages (s : RunState) (h : s.processed_count = 0) :
    (fetch_and_store_emails s []).output = s.output ∧
    (fetch_and_store_emails s []).tracker = s.tracker ∧
    (fetch_and_store_emails s []).statsRows = s.statsRows ++ [mkStatsRow s] ∧
    (mkStatsRow s).emails_processed = 0 := by
  rw [fetch_and_store_emails, run_try_body_nil]
  exact ⟨rfl, rfl, rfl, h⟩

/-- Witness for C7 at the initial state. -/
theorem C7_witness :
    initState.processed_count = 0 ∧
    ((fetch_and_store_emails initState []).output = initState.output ∧
      (fetch_and_store_emails initState []).tracker = initState.tracker ∧
      (fetch_and_store_emails initState []).statsRows =
        initState.statsRows ++ [mkStatsRow initState] ∧
      (mkStatsRow initState).emails_processed = 0) :=
  ⟨rfl, C7_zero_messages initState rfl⟩

/-- C8: a fetched message whose date header fails the fixed-format parse is
still included in the output records (and counted by the processed counter),
but its date contributes nothing to the tracked maximum used for cursor
advancement. -/
theorem C8_unparseable_date (s : RunState) (pre post : List FetchResult) (fr : FetchResult)
    (h : trackDate (recordOf fr).Date = none) :
    recordsOf (pre ++ fr :: post) = recordsOf pre ++ recordOf fr :: recordsOf post ∧
    foldLatest none (pre ++ fr :: post) = foldLatest none (pre ++ post) ∧
    (fetch_and_store_emails s (pre ++ fr :: post)).processed_count =
      s.processed_count + (pre.length + 1 + post.length) := by
  refine ⟨by simp [recordsOf], ?_, ?_⟩
  · rw [foldLatest, foldLatest, List.foldl_append, List.foldl_append, List.foldl_cons]
    have hstep : updateLatest (List.foldl
        (fun acc fr => updateLatest acc (trackDate (recordOf fr).Date)) none pre)
        (trackDate (recordOf fr).Date) = List.foldl
        (fun acc fr => updateLatest acc (trackDate (recordOf fr).Date)) none pre := by
      rw [h]
      rfl
    rw [hstep]
  · rw [(counters_fetch s _).1]
    simp
    omega

/-- Witness for C8: a record without a parseable date between two parseable
ones is present in the records but absent from the tracked maximum. -/
theorem C8_witness :
    trackDate (recordOf (some detailNoDate)).Date = none ∧
    (recordsOf [some detailOct23, some detailNoDate, some detailOct24] =
      recordsOf [some detailOct23] ++ recordOf (some detailNoDate) ::
        recordsOf [some detailOct24] ∧
    foldLatest none [some detailOct23, some detailNoDate, some detailOct24] =
      foldLatest none [some detailOct23, some detailOct24] ∧
    (fetch_and_store_emails initState
        [some detailOct23, some detailNoDate, some detailOct24]).processed_count =
      initState.processed_count + (1 + 1 + 1)) := by
  constructor
  · rfl
  · have := C8_unparseable_date initState [some detailOct23] [some detailOct24]
      (some detailNoDate) rfl
    simpa using this

/-- C9: the top-level control flow of `fetch_and_store_emails` catches every
exception raised by the `try` block (query building, listing, fetching,
extraction, date tracking, persistence): for both a completed and an aborted
body, the run proceeds to `finally`, appends exactly one job-statistics row,
and returns normally; the exception-free run is the `Except.ok` instance of
this scheme. -/
theorem C9_top_level_catch (o : TryOutcome) :
    fetch_and_store_outcome o = logJobStats (tryOutcomeState o) ∧
    (fetch_and_store_outcome o).statsRows =
      (tryOutcomeState o).statsRows ++ [mkStatsRow (tryOutcomeState o)] ∧
    (∀ s frs, fetch_and_store_emails s frs =
      fetch_and_store_outcome (Except.ok (run_try_body s frs))) := by
  refine ⟨?_, ?_, fun s frs => rfl⟩
  · cases o with
    | ok s1 => rfl
    | error e =>
      obtain ⟨s1, msg⟩ := e
      rfl
  · cases o with
    | ok s1 => rfl
    | error e =>
      obtain ⟨s1, msg⟩ := e
      rfl

/-- C10: a date header with a single-digit day of month defeats the
fixed 16-character-prefix parse — the slice ends one character past the year,
on the space before the time of day, and CPython rejects the unconverted
trailing character — as witnessed concretely by
`Wed, 3 Oct 2024 10:00:00 +0000`; consequently a run all of whose records
carry such headers never advances the cursor. -/
theorem C10_single_digit_day (s : RunState) (frs : List FetchResult)
    (h : ∀ fr ∈ frs, ∃ w m time : String, ∃ d y1 y2 y3 y4 : Char,
      w.length = 3 ∧ m.length = 3 ∧ d.isDigit = true ∧
      (recordOf fr).Date = w ++ ", " ++ String.singleton d ++ " " ++ m ++ " " ++
        String.mk [y1, y2, y3, y4] ++ " " ++ time) :
    trackDate "Wed, 3 Oct 2024 10:00:00 +0000" = none ∧
    (fetch_and_store_emails s frs).tracker = s.tracker := by
  constructor
  · rfl
  · rw [tracker_fetch]
    have hnone : foldLatest none frs = none := by
      apply foldLatest_all_none
      intro fr hfr
      obtain ⟨w, m, time, d, y1, y2, y3, y4, hw, hm, hd, hdate⟩ := h fr hfr
      rw [hdate]
      exact singleDigitHeader_track_none w m time d y1 y2 y3 y4 hw hm
    rw [hnone]

/-- Witness for C10: one fetched message dated `Wed, 3 Oct 2024 10:00:00
+0000`; the run leaves the (absent) cursor unchanged. -/
theorem C10_witness :
    (recordOf (some detailDayThree)).Date = "Wed" ++ ", " ++ String.singleton '3' ++ " " ++
      "Oct" ++ " " ++ String.mk ['2', '0', '2', '4'] ++ " " ++ "10:00:00 +0000" ∧
    (trackDate "Wed, 3 Oct 2024 10:00:00 +0000" = none ∧
      (fetch_and_store_emails initState [some detailDayThree]).tracker = initState.tracker) := by
  constructor
  · rfl
  · apply C10_single_digit_day
    intro fr hfr
    rw [List.mem_singleton] at hfr
    subst hfr
    exact ⟨"Wed", "Oct", "10:00:00 +0000", '3', '2', '0', '2', '4', rfl, rfl, rfl, rfl⟩

end BfaGmail
